import Mathlib

/-!
Verification of the `webm-convert` batch video-transcoding orchestrator
(`mod.ts`, current Deno variant) against its design document.

The development shallowly embeds the pieces of `mod.ts` the properties talk
about:

* the resolution matcher `findResolutionOptions` (mod.ts:327-402), over a
  model of JavaScript numbers where `Option Int` is used and `none` stands
  for a non-numeric value (`NaN` or `undefined`; both fall through every
  `case` label of the `switch` and poison arithmetic in the same way);
* the config store startup logic (mod.ts:21-48) over JSON-like records;
* the notifier `sendPushoverMessage` (mod.ts:272-301), with per-recipient
  HTTP delivery outcomes supplied as data;
* the per-file pipeline of the main loop (mod.ts:115-253) and the batch
  (mod.ts:115-260), as functions from per-file environments (results of the
  external probe/encode/integrity processes) to outcomes and action traces.
-/

/-! ## JavaScript number model for the resolution matcher -/

/-- JS subtraction on the `Option Int` model: any non-numeric operand
(`NaN`/`undefined`) yields `NaN`. -/
def jsSub : Option Int → Option Int → Option Int
  | some a, some b => some (a - b)
  | _, _ => none

/-- `Math.abs`: `NaN` propagates. -/
def jsAbs : Option Int → Option Int
  | some a => some (if a < 0 then -a else a)
  | none => none

/-- Binary `Math.min`: `NaN` if either argument is `NaN`, else the smaller. -/
def jsMin2 : Option Int → Option Int → Option Int
  | some a, some b => some (if a ≤ b then a else b)
  | _, _ => none

/-- `Math.min(...xs)` on a non-empty spread: `NaN` if any argument is `NaN`,
otherwise the minimum. (`Math.min()` with no arguments is `Infinity`; the
code only calls it on the four deltas, so the `[]` case is unreachable and
modelled as `none`.) -/
def jsMinList : List (Option Int) → Option Int
  | [] => none
  | [x] => x
  | x :: y :: xs => jsMin2 x (jsMinList (y :: xs))

/-- Helper for `Array.prototype.indexOf` with a numeric target: first index
whose element is strictly equal to the target, else `-1`. -/
def jsIndexOfAux : List (Option Int) → Int → Int → Int
  | [], _, _ => -1
  | x :: xs, v, i => if x = some v then i else jsIndexOfAux xs v (i + 1)

/-- `Array.prototype.indexOf` uses strict equality, so a `NaN` target never
matches anything and yields `-1`. -/
def jsIndexOf (xs : List (Option Int)) (v : Option Int) : Int :=
  match v with
  | none => -1
  | some a => jsIndexOfAux xs a 0

/-- JS array indexing `xs[i]`: out-of-range (including `-1`) is `undefined`,
modelled as `none`. -/
def jsGetIdx : List Int → Int → Option Int
  | [], _ => none
  | x :: xs, i => if i = 0 then some x else if i < 0 then none else jsGetIdx xs (i - 1)

/-! ## The resolution matcher (mod.ts:327-402) -/

/-- Return type of `findResolutionOptions`: the matched height and the
ordered encoder flag list. -/
structure ResolutionMatch where
  matchedResolution : Int
  options : List String
deriving DecidableEq, Repr

/-- `availableResolutions` (mod.ts:387-392). -/
def availableResolutions : List Int := [360, 480, 720, 1080]

/-- `findResolutionOptions` (mod.ts:327-402), translated with explicit fuel:
the JS function recurses in its `default` branch, and the fuel counts the
number of nested calls allowed; `none` as a result models a call that never
returns within that many self-calls. -/
def findResolutionOptions : Nat → Option Int → Option ResolutionMatch
  | 0, _ => none
  | n + 1, h =>
    if h = some 360 then
      some ⟨360, ["-crf", "36", "-tile-columns", "1", "-threads", "4"]⟩
    else if h = some 480 then
      some ⟨480, ["-crf", "33", "-tile-columns", "1", "-threads", "4"]⟩
    else if h = some 720 then
      some ⟨720, ["-crf", "32", "-tile-columns", "2", "-threads", "8"]⟩
    else if h = some 1080 then
      some ⟨1080, ["-crf", "31", "-tile-columns", "2", "-threads", "8"]⟩
    else
      let deltas := availableResolutions.map (fun r => jsAbs (jsSub (some r) h))
      let lowest := jsMinList deltas
      let matchedResolution := jsGetIdx availableResolutions (jsIndexOf deltas lowest)
      findResolutionOptions n matchedResolution

/-- The value the `default` branch recurses on, for a numeric input
(mod.ts:393-397). -/
def codeNearest (h : Int) : Option Int :=
  jsGetIdx availableResolutions
    (jsIndexOf (availableResolutions.map (fun r => jsAbs (jsSub (some r) (some h))))
      (jsMinList (availableResolutions.map (fun r => jsAbs (jsSub (some r) (some h))))))

/-! ## Spec-side definitions (design document §4.2)

These are written from the design document's words, to be compared with the
code-side matcher: the profile table, and the nearest-supported-height rule
"compute absolute difference to every supported height, select the minimum;
ties broken by the first minimal candidate in ascending supported-height
order". -/

/-- Integer absolute value, spelled out. -/
def iabs (a : Int) : Int := if a < 0 then -a else a

/-- Spec §4.2 profile table: quality (`-crf`), tiling (`-tile-columns`) and
thread parameters per supported height, as the ordered flag sequence. -/
def specProfile (h : Int) : Option ResolutionMatch :=
  if h = 360 then some ⟨360, ["-crf", "36", "-tile-columns", "1", "-threads", "4"]⟩
  else if h = 480 then some ⟨480, ["-crf", "33", "-tile-columns", "1", "-threads", "4"]⟩
  else if h = 720 then some ⟨720, ["-crf", "32", "-tile-columns", "2", "-threads", "8"]⟩
  else if h = 1080 then some ⟨1080, ["-crf", "31", "-tile-columns", "2", "-threads", "8"]⟩
  else none

/-- Spec §4.2 nearest-match rule: the supported height with minimal absolute
difference to the probed height, first minimal candidate in ascending order
(so the lower height wins exact ties). -/
def specNearest (h : Int) : Int :=
  [480, 720, 1080].foldl (fun best r => if iabs (r - h) < iabs (best - h) then r else best) 360

/-! ## The config store (mod.ts:13-48)

The stored collection is a JSON document: a list of records, each a list of
string-keyed JSON values.  The `aloedb` `Database` object is an external
dependency of the repository. Modelled from the spec: "JSON document,
pretty-printed, containing one record per schema version" with
`insertOne` appending a new record to the collection without touching the
existing ones, and `save` flushing the collection to disk synchronously. -/

/-- A JSON value (the fragment the config file uses). -/
inductive JsonVal where
  | num (n : Int)
  | str (s : String)
  | arr (xs : List JsonVal)

/-- A JSON object, as an ordered list of key/value fields. -/
abbrev JsonRecord := List (String × JsonVal)

/-- Field lookup in a record. -/
def lookupField (r : JsonRecord) (k : String) : Option JsonVal :=
  (r.find? (fun p => p.fst == k)).map Prod.snd

/-- `currentConfigFileVersion` (mod.ts:27). -/
def currentConfigFileVersion : Int := 2

/-- The record the code inserts when no current-version config exists,
exactly as written at mod.ts:39-43: note the key `pushover_user`
(singular) holding a one-element array with a blank string. -/
def defaultInsertedRecord : JsonRecord :=
  [("version", JsonVal.num 2),
   ("pushover_token", JsonVal.str ""),
   ("pushover_user", JsonVal.arr [JsonVal.str ""])]

/-- Is a JSON value a string? -/
def isJsonStr : JsonVal → Bool
  | JsonVal.str _ => true
  | _ => false

/-- Is a JSON value a number? -/
def isJsonNum : JsonVal → Bool
  | JsonVal.num _ => true
  | _ => false

/-- Is a JSON value an array of strings? -/
def isJsonStrArr : JsonVal → Bool
  | JsonVal.arr xs => xs.all isJsonStr
  | _ => false

/-- Structural conformance to the `AppConfig` interface (mod.ts:15-19):
`version: number`, `pushover_token: string`, `pushover_users: Array<string>`
(the spec's `{version: integer, notification_token: string,
notification_recipients: ordered sequence of string}`). -/
def matchesAppConfig (r : JsonRecord) : Bool :=
  (match lookupField r "version" with
   | some v => isJsonNum v
   | none => false)
  && (match lookupField r "pushover_token" with
      | some v => isJsonStr v
      | none => false)
  && (match lookupField r "pushover_users" with
      | some v => isJsonStrArr v
      | none => false)

/-- Does a record's `version` field hold the number `v`? -/
def versionIs (r : JsonRecord) (v : Int) : Bool :=
  match lookupField r "version" with
  | some (JsonVal.num n) => n == v
  | _ => false

/-- `configDB.findOne({version: v})` (mod.ts:30-32): first stored record
whose `version` field equals `v`. -/
def findOneVersion (db : List JsonRecord) (v : Int) : Option JsonRecord :=
  db.find? (fun r => versionIs r v)

/-- The startup config logic (mod.ts:30-48): look up the current-version
record; when absent, insert `defaultInsertedRecord` (aloedb `insertOne`
appends) and flush with `save`.  Returns the collection afterwards and
whether a flush to disk happened. -/
def loadOrInit (db : List JsonRecord) : List JsonRecord × Bool :=
  match findOneVersion db currentConfigFileVersion with
  | some _ => (db, false)
  | none => (db ++ [defaultInsertedRecord], true)

/-! ## The notifier (mod.ts:272-301)

`sendPushoverMessage` issues one `fetch` per configured recipient inside
`Promise.all` and is awaited by every caller.  A `fetch` promise settles with
a `Response` for any HTTP status (2xx or not; the code never reads the
response) and rejects only on network-level failure; a rejection escapes
`Promise.all`, then `sendPushoverMessage`, then the awaiting caller — the
code has no `try`/`catch` around any of this.  The per-recipient settlement
results are supplied as data (`DeliveryOutcome`), since they come from the
network. -/

/-- How one recipient's HTTP POST settles. -/
inductive DeliveryOutcome where
  | resolved (status : Nat)
  | networkError
deriving DecidableEq, Repr

/-- The fields of the startup `config` record that `sendPushoverMessage`
reads (mod.ts:274-285). -/
structure NotifierConfig where
  pushover_token : String
  pushover_users : List String
deriving DecidableEq, Repr

/-- How a run of the program can be aborted by an exception or
non-termination; used as the error type of the embedded computations. -/
inductive AbortReason where
  | notifyNetworkError
  | matcherDiverges
deriving DecidableEq, Repr

/-- Does any delivery reject at the network level? -/
def hasNetworkError (ds : List DeliveryOutcome) : Bool :=
  ds.any (fun d =>
    match d with
    | DeliveryOutcome.networkError => true
    | _ => false)

/-- `sendPushoverMessage` (mod.ts:272-301).  `cfg = none` models
`config === null` (no current-version record was found at startup); the
falsy-guard on blank token / empty recipients returns after an
informational log line.  Otherwise one POST per recipient runs under
`Promise.all`: if any rejects, the rejection propagates to the caller
(there is no catch); any resolved response — whatever its HTTP status —
is ignored. -/
def sendPushoverMessage (cfg : Option NotifierConfig)
    (deliveries : List DeliveryOutcome) : Except AbortReason Unit :=
  match cfg with
  | none => Except.ok ()
  | some c =>
    if c.pushover_token = "" || c.pushover_users.length = 0 then Except.ok ()
    else if hasNetworkError deliveries then Except.error AbortReason.notifyNetworkError
    else Except.ok ()

/-! ## The batch orchestrator (mod.ts:115-260)

The per-file loop body is embedded as a function from a `FileEnv` — the
results the external processes hand back for that file — to a `FileOutcome`
recording the terminal state, the ordered trace of pipeline actions, and
whether the per-file progress interval was started and cleared.  The
`PipeAction` vocabulary includes `statDirectory`, the explicit
filesystem-metadata query named by the design document, so that its absence
from every trace is statable. -/

/-- The kinds of message the program sends through the notifier. -/
inductive NotifyKind where
  | fileError
  | fileSuccess
  | batchSummary
deriving DecidableEq, Repr

/-- Pipeline actions, in the vocabulary of the design document's state
machine. -/
inductive PipeAction where
  | statDirectory
  | checkInputIntegrity
  | probeHeight
  | ensureOutputDir
  | startTimer (i : Nat)
  | thumbnail
  | encode
  | checkOutputIntegrity
  | clearTimer (i : Nat)
  | notify (k : NotifyKind)
deriving DecidableEq, Repr

/-- Terminal state of one file's pipeline (design document §4.6). -/
inductive FileStatus where
  | done
  | failed
  | skipped
deriving DecidableEq, Repr

/-- What one iteration of the loop produced. -/
structure FileOutcome where
  status : FileStatus
  actions : List PipeAction
  startedTimer : Bool
  clearedTimer : Bool
deriving DecidableEq, Repr

/-- The per-file results of the external processes and deliveries:
everything the loop body reads that comes from outside. -/
structure FileEnv where
  /-- Whether the input path refers to a directory (filesystem metadata). -/
  isDirectory : Bool
  /-- Result of `hasIntegrityError(file.dir + file.base)` (mod.ts:123). -/
  inputIntegrityError : Bool
  /-- `Number(...)` of the ffprobe output (mod.ts:148-150); `none` is `NaN`. -/
  probedHeight : Option Int
  /-- Exit code of the ffmpeg encode (mod.ts:233); awaited and discarded. -/
  encodeExitCode : Int
  /-- Result of `hasIntegrityError(outputFileName)` (mod.ts:236). -/
  outputIntegrityError : Bool
  /-- Per-recipient delivery outcomes if an error notification is sent. -/
  errorNotifyDeliveries : List DeliveryOutcome
  /-- Per-recipient delivery outcomes if a success notification is sent. -/
  successNotifyDeliveries : List DeliveryOutcome
deriving DecidableEq, Repr

/-- One iteration of the loop (mod.ts:115-253), for the file at (1-based)
display index `i`.  Sequencing through `Except` models exceptions at top
level: `Except.error` aborts the whole batch.  Note what the source does:
the encode's exit status is awaited but never inspected (mod.ts:233); the
`continue` on an output-integrity failure (mod.ts:241) skips the
`clearInterval` (mod.ts:245); and nothing ever queries directory metadata
or produces a "skipped" state. -/
def processFile (cfg : Option NotifierConfig) (i : Nat) (env : FileEnv) :
    Except AbortReason FileOutcome :=
  if env.inputIntegrityError then
    match sendPushoverMessage cfg env.errorNotifyDeliveries with        -- mod.ts:127 await
    | Except.error e => Except.error e
    | Except.ok _ =>
      Except.ok { status := FileStatus.failed,
                  actions := [PipeAction.checkInputIntegrity,
                              PipeAction.notify NotifyKind.fileError],
                  startedTimer := false, clearedTimer := false }        -- mod.ts:128 continue
  else
    match findResolutionOptions 2 env.probedHeight with                 -- mod.ts:152-155
    | none => Except.error AbortReason.matcherDiverges
    | some _ =>
      if env.outputIntegrityError then
        match sendPushoverMessage cfg env.errorNotifyDeliveries with    -- mod.ts:240 await
        | Except.error e => Except.error e
        | Except.ok _ =>
          Except.ok { status := FileStatus.failed,
                      actions := [PipeAction.checkInputIntegrity, PipeAction.probeHeight,
                                  PipeAction.ensureOutputDir, PipeAction.startTimer i,
                                  PipeAction.thumbnail, PipeAction.encode,
                                  PipeAction.checkOutputIntegrity,
                                  PipeAction.notify NotifyKind.fileError],
                      startedTimer := true, clearedTimer := false }     -- mod.ts:241 continue
      else
        match sendPushoverMessage cfg env.successNotifyDeliveries with  -- mod.ts:252 await
        | Except.error e => Except.error e
        | Except.ok _ =>
          Except.ok { status := FileStatus.done,
                      actions := [PipeAction.checkInputIntegrity, PipeAction.probeHeight,
                                  PipeAction.ensureOutputDir, PipeAction.startTimer i,
                                  PipeAction.thumbnail, PipeAction.encode,
                                  PipeAction.checkOutputIntegrity, PipeAction.clearTimer i,
                                  PipeAction.notify NotifyKind.fileSuccess],
                      startedTimer := true, clearedTimer := true }

/-- The loop over all files (mod.ts:115), threading the 1-based display
index. -/
def runBatchAux (cfg : Option NotifierConfig) :
    Nat → List FileEnv → Except AbortReason (List FileOutcome)
  | _, [] => Except.ok []
  | i, env :: rest =>
    match processFile cfg i env with
    | Except.error e => Except.error e
    | Except.ok o =>
      match runBatchAux cfg (i + 1) rest with
      | Except.error e => Except.error e
      | Except.ok os => Except.ok (o :: os)

/-- Result of a completed batch. -/
structure BatchResult where
  outcomes : List FileOutcome
  finalActions : List PipeAction
deriving DecidableEq, Repr

/-- The whole batch (mod.ts:115-260): the loop, then the unconditional
summary message (mod.ts:255-260). -/
def runBatch (cfg : Option NotifierConfig) (envs : List FileEnv)
    (summaryDeliveries : List DeliveryOutcome) : Except AbortReason BatchResult :=
  match runBatchAux cfg 1 envs with
  | Except.error e => Except.error e
  | Except.ok os =>
    match sendPushoverMessage cfg summaryDeliveries with                -- mod.ts:260 await
    | Except.error e => Except.error e
    | Except.ok _ =>
      Except.ok { outcomes := os, finalActions := [PipeAction.notify NotifyKind.batchSummary] }

/-- The interleaved action trace of a completed batch. -/
def batchTrace (r : BatchResult) : List PipeAction :=
  (r.outcomes.map FileOutcome.actions).flatten ++ r.finalActions

/-- Closed form of a completed iteration's outcome (no aborts). -/
def pureOutcome (i : Nat) (env : FileEnv) : FileOutcome :=
  if env.inputIntegrityError then
    { status := FileStatus.failed,
      actions := [PipeAction.checkInputIntegrity, PipeAction.notify NotifyKind.fileError],
      startedTimer := false, clearedTimer := false }
  else if env.outputIntegrityError then
    { status := FileStatus.failed,
      actions := [PipeAction.checkInputIntegrity, PipeAction.probeHeight,
                  PipeAction.ensureOutputDir, PipeAction.startTimer i,
                  PipeAction.thumbnail, PipeAction.encode,
                  PipeAction.checkOutputIntegrity, PipeAction.notify NotifyKind.fileError],
      startedTimer := true, clearedTimer := false }
  else
    { status := FileStatus.done,
      actions := [PipeAction.checkInputIntegrity, PipeAction.probeHeight,
                  PipeAction.ensureOutputDir, PipeAction.startTimer i,
                  PipeAction.thumbnail, PipeAction.encode,
                  PipeAction.checkOutputIntegrity, PipeAction.clearTimer i,
                  PipeAction.notify NotifyKind.fileSuccess],
      startedTimer := true, clearedTimer := true }

/-- Closed form of the outcome list of a completed loop. -/
def pureOutcomes : Nat → List FileEnv → List FileOutcome
  | _, [] => []
  | i, env :: rest => pureOutcome i env :: pureOutcomes (i + 1) rest

/-- A file environment whose external results let the iteration finish
without an abort: no delivery rejects and the probe yielded a number. -/
def cleanEnv (env : FileEnv) : Prop :=
  hasNetworkError env.errorNotifyDeliveries = false
  ∧ hasNetworkError env.successNotifyDeliveries = false
  ∧ env.probedHeight.isSome = true

/-! ### Concrete fixtures used by the claim theorems -/

/-- A record with the shape the `AppConfig` interface declares, for
contrast: identical to `defaultInsertedRecord` except that the recipients
field is spelled `pushover_users` as the interface requires. -/
def appConfigShapedRecord : JsonRecord :=
  [("version", JsonVal.num 2),
   ("pushover_token", JsonVal.str ""),
   ("pushover_users", JsonVal.arr [JsonVal.str ""])]

/-- A stored record of schema version 1 (the historical shape). -/
def v1Record : JsonRecord :=
  [("version", JsonVal.num 1),
   ("pushover_token", JsonVal.str "tok"),
   ("pushover_user", JsonVal.str "usr")]

/-- A configured notifier (non-blank token, two recipients). -/
def cfgDemo : Option NotifierConfig :=
  some { pushover_token := "token", pushover_users := ["alice", "bob"] }

/-- Per-recipient deliveries that all resolve with 200. -/
def okDeliveries : List DeliveryOutcome :=
  [DeliveryOutcome.resolved 200, DeliveryOutcome.resolved 200]

/-- Deliveries where the second recipient's POST rejects at network level. -/
def netErrDeliveries : List DeliveryOutcome :=
  [DeliveryOutcome.resolved 200, DeliveryOutcome.networkError]

/-- A file whose external steps all succeed, at probed height `h`. -/
def batchOkEnv (h : Int) : FileEnv :=
  { isDirectory := false, inputIntegrityError := false, probedHeight := some h,
    encodeExitCode := 0, outputIntegrityError := false,
    errorNotifyDeliveries := okDeliveries, successNotifyDeliveries := okDeliveries }

/-- A file whose encode exits with code 1 but whose output passes the
integrity check. -/
def encodeFailEnv : FileEnv :=
  { isDirectory := false, inputIntegrityError := false, probedHeight := some 720,
    encodeExitCode := 1, outputIntegrityError := false,
    errorNotifyDeliveries := okDeliveries, successNotifyDeliveries := okDeliveries }

/-- A file whose encode exits with code 1 and whose (broken) output fails
the integrity check. -/
def encodeCrashEnv : FileEnv :=
  { isDirectory := false, inputIntegrityError := false, probedHeight := some 480,
    encodeExitCode := 1, outputIntegrityError := true,
    errorNotifyDeliveries := okDeliveries, successNotifyDeliveries := okDeliveries }

/-- A file whose encoded output fails the integrity check (external steps
otherwise fine). -/
def outputFailEnv : FileEnv :=
  { isDirectory := false, inputIntegrityError := false, probedHeight := some 1080,
    encodeExitCode := 0, outputIntegrityError := true,
    errorNotifyDeliveries := okDeliveries, successNotifyDeliveries := okDeliveries }

/-- A file whose pipeline completes cleanly. -/
def outputOkEnv : FileEnv :=
  { isDirectory := false, inputIntegrityError := false, probedHeight := some 1080,
    encodeExitCode := 0, outputIntegrityError := false,
    errorNotifyDeliveries := okDeliveries, successNotifyDeliveries := okDeliveries }

/-- A file that completes cleanly except that one recipient's success
notification rejects at network level. -/
def notifyCrashEnv : FileEnv :=
  { isDirectory := false, inputIntegrityError := false, probedHeight := some 720,
    encodeExitCode := 0, outputIntegrityError := false,
    errorNotifyDeliveries := okDeliveries, successNotifyDeliveries := netErrDeliveries }

/-- A file failing its input integrity check, for the C7 witness batch. -/
def c7FailEnv : FileEnv :=
  { isDirectory := false, inputIntegrityError := true, probedHeight := some 600,
    encodeExitCode := 0, outputIntegrityError := false,
    errorNotifyDeliveries := okDeliveries, successNotifyDeliveries := okDeliveries }

/-- A file completing cleanly at probed height 900, for the C7 witness
batch. -/
def c7OkEnv : FileEnv :=
  { isDirectory := false, inputIntegrityError := false, probedHeight := some 900,
    encodeExitCode := 0, outputIntegrityError := false,
    errorNotifyDeliveries := okDeliveries, successNotifyDeliveries := okDeliveries }

/-- The completed result of the C7 witness batch. -/
def c7Result : BatchResult :=
  { outcomes := pureOutcomes 1 [c7FailEnv, c7OkEnv],
    finalActions := [PipeAction.notify NotifyKind.batchSummary] }

/-- An input path that is a directory; the decode-only integrity probe of a
directory emits diagnostics, so its integrity flag is set. -/
def dirEnv : FileEnv :=
  { isDirectory := true, inputIntegrityError := true, probedHeight := some 480,
    encodeExitCode := 0, outputIntegrityError := false,
    errorNotifyDeliveries := okDeliveries, successNotifyDeliveries := okDeliveries }

/-- A directory input whose external results are otherwise clean, for the
C8 witness. -/
def dirProbeEnv : FileEnv :=
  { isDirectory := true, inputIntegrityError := false, probedHeight := some 240,
    encodeExitCode := 0, outputIntegrityError := false,
    errorNotifyDeliveries := okDeliveries, successNotifyDeliveries := okDeliveries }

/-! ### Matcher lemmas -/

lemma deltas_eval (h : Int) :
    availableResolutions.map (fun r => jsAbs (jsSub (some r) (some h)))
      = [some (iabs (360 - h)), some (iabs (480 - h)),
         some (iabs (720 - h)), some (iabs (1080 - h))] := by
  simp [availableResolutions, jsSub, jsAbs, iabs]

lemma jsMinList_four (a b c d : Int) :
    jsMinList [some a, some b, some c, some d]
      = some (if a ≤ if b ≤ if c ≤ d then c else d then b else if c ≤ d then c else d
              then a else if b ≤ if c ≤ d then c else d then b else if c ≤ d then c else d) := by
  simp [jsMinList, jsMin2]

lemma jsIndexOf_four (a b c d m : Int) :
    jsIndexOf [some a, some b, some c, some d] (some m)
      = if a = m then 0 else if b = m then 1 else if c = m then 2
        else if d = m then 3 else -1 := by
  simp only [jsIndexOf, jsIndexOfAux, Option.some.injEq]
  norm_num

lemma specNearest_eval (h : Int) :
    specNearest h
      = (if iabs (1080 - h) <
            iabs ((if iabs (720 - h) <
                      iabs ((if iabs (480 - h) < iabs (360 - h) then 480 else 360) - h)
                   then 720
                   else if iabs (480 - h) < iabs (360 - h) then 480 else 360) - h)
         then 1080
         else if iabs (720 - h) <
                  iabs ((if iabs (480 - h) < iabs (360 - h) then 480 else 360) - h)
              then 720
              else if iabs (480 - h) < iabs (360 - h) then 480 else 360) := by
  simp only [specNearest, List.foldl]

set_option maxHeartbeats 2000000 in
lemma codeNearest_eq (h : Int) : codeNearest h = some (specNearest h) := by
  unfold codeNearest
  rw [deltas_eval, jsMinList_four, jsIndexOf_four, specNearest_eval]
  simp only [apply_ite (fun x : Int => iabs (x - h))]
  generalize iabs (360 - h) = d1
  generalize iabs (480 - h) = d2
  generalize iabs (720 - h) = d3
  generalize iabs (1080 - h) = d4
  split_ifs <;> first | decide | (exfalso; omega)

lemma specNearest_mem (h : Int) :
    specNearest h = 360 ∨ specNearest h = 480 ∨ specNearest h = 720 ∨ specNearest h = 1080 := by
  rw [specNearest_eval]
  split_ifs <;> simp

lemma findRO_exact (n : Nat) (s : Int)
    (hs : s = 360 ∨ s = 480 ∨ s = 720 ∨ s = 1080) :
    findResolutionOptions (n + 1) (some s) = specProfile s := by
  rcases hs with h | h | h | h <;> subst h <;> rfl

lemma findRO_default (n : Nat) (h : Int)
    (h1 : h ≠ 360) (h2 : h ≠ 480) (h3 : h ≠ 720) (h4 : h ≠ 1080) :
    findResolutionOptions (n + 1) (some h) = findResolutionOptions n (codeNearest h) := by
  simp only [findResolutionOptions, codeNearest, Option.some.injEq]
  rw [if_neg h1, if_neg h2, if_neg h3, if_neg h4]

lemma findRO_int (h : Int)
    (h1 : h ≠ 360) (h2 : h ≠ 480) (h3 : h ≠ 720) (h4 : h ≠ 1080) :
    findResolutionOptions 2 (some h) = specProfile (specNearest h) := by
  rw [show (2 : Nat) = 1 + 1 from rfl, findRO_default 1 h h1 h2 h3 h4, codeNearest_eq]
  exact findRO_exact 0 _ (specNearest_mem h)

lemma specNearest_min (h r : Int) (hr : r = 360 ∨ r = 480 ∨ r = 720 ∨ r = 1080) :
    iabs (specNearest h - h) ≤ iabs (r - h) := by
  rw [specNearest_eval]
  simp only [apply_ite (fun x : Int => iabs (x - h))]
  rcases hr with h0 | h0 | h0 | h0 <;> subst h0 <;> split_ifs <;> omega

lemma specNearest_tie (h r : Int) (hr : r = 360 ∨ r = 480 ∨ r = 720 ∨ r = 1080)
    (heq : iabs (r - h) = iabs (specNearest h - h)) : specNearest h ≤ r := by
  rw [specNearest_eval] at heq ⊢
  simp only [apply_ite (fun x : Int => iabs (x - h))] at heq
  rcases hr with h0 | h0 | h0 | h0 <;> subst h0 <;> split_ifs <;> split_ifs at heq <;> omega

lemma findRO_fuel (h : Int) (n : Nat) :
    findResolutionOptions (n + 2) (some h) = findResolutionOptions 2 (some h) := by
  by_cases hs : h = 360 ∨ h = 480 ∨ h = 720 ∨ h = 1080
  · rw [show n + 2 = (n + 1) + 1 from rfl, findRO_exact (n + 1) h hs,
      show (2 : Nat) = 1 + 1 from rfl, findRO_exact 1 h hs]
  · push_neg at hs
    obtain ⟨h1, h2, h3, h4⟩ := hs
    rw [show n + 2 = (n + 1) + 1 from rfl, findRO_default (n + 1) h h1 h2 h3 h4,
      show (2 : Nat) = 1 + 1 from rfl, findRO_default 1 h h1 h2 h3 h4, codeNearest_eq,
      findRO_exact n _ (specNearest_mem h), findRO_exact 0 _ (specNearest_mem h)]

/-- A `NaN` probed height never escapes the matcher: every fuel bound is
exhausted (the code recurses forever). -/
lemma findRO_none : ∀ n : Nat, findResolutionOptions n none = none
  | 0 => rfl
  | n + 1 => findRO_none n

/-! ### Orchestrator lemmas -/

lemma sendPushover_ok (cfg : Option NotifierConfig) (ds : List DeliveryOutcome)
    (hd : hasNetworkError ds = false) : sendPushoverMessage cfg ds = Except.ok () := by
  cases cfg with
  | none => rfl
  | some c =>
    simp only [sendPushoverMessage, hd]
    split_ifs <;> simp_all

lemma findRO_int_isSome (v : Int) : (findResolutionOptions 2 (some v)).isSome = true := by
  by_cases hs : v = 360 ∨ v = 480 ∨ v = 720 ∨ v = 1080
  · rw [show (2 : Nat) = 1 + 1 from rfl, findRO_exact 1 v hs]
    rcases hs with h | h | h | h <;> subst h <;> rfl
  · push_neg at hs
    obtain ⟨h1, h2, h3, h4⟩ := hs
    rw [findRO_int v h1 h2 h3 h4]
    rcases specNearest_mem v with h | h | h | h <;> rw [h] <;> rfl

lemma processFile_ok (cfg : Option NotifierConfig) (i : Nat) (env : FileEnv)
    (hc : cleanEnv env) :
    processFile cfg i env = Except.ok (pureOutcome i env) := by
  obtain ⟨he, hs, hh⟩ := hc
  obtain ⟨v, hv⟩ := Option.isSome_iff_exists.mp hh
  obtain ⟨p, hp⟩ := Option.isSome_iff_exists.mp (findRO_int_isSome v)
  have E1 : sendPushoverMessage cfg env.errorNotifyDeliveries = Except.ok () :=
    sendPushover_ok cfg _ he
  have E2 : sendPushoverMessage cfg env.successNotifyDeliveries = Except.ok () :=
    sendPushover_ok cfg _ hs
  by_cases h1 : env.inputIntegrityError <;> by_cases h2 : env.outputIntegrityError <;>
    simp [processFile, pureOutcome, h1, h2, hv, hp, E1, E2]

lemma runBatchAux_ok (cfg : Option NotifierConfig) (envs : List FileEnv)
    (hc : ∀ e ∈ envs, cleanEnv e) :
    ∀ i : Nat, runBatchAux cfg i envs = Except.ok (pureOutcomes i envs) := by
  induction envs with
  | nil => intro i; rfl
  | cons e rest ih =>
    intro i
    have h1 := hc e (List.mem_cons_self e rest)
    have h2 : ∀ x ∈ rest, cleanEnv x := fun x hx => hc x (List.mem_cons_of_mem e hx)
    simp only [runBatchAux, processFile_ok cfg i e h1, ih h2 (i + 1), pureOutcomes]

lemma runBatch_ok (cfg : Option NotifierConfig) (envs : List FileEnv)
    (sd : List DeliveryOutcome) (hc : ∀ e ∈ envs, cleanEnv e)
    (hsd : hasNetworkError sd = false) :
    runBatch cfg envs sd
      = Except.ok { outcomes := pureOutcomes 1 envs,
                    finalActions := [PipeAction.notify NotifyKind.batchSummary] } := by
  simp only [runBatch, runBatchAux_ok cfg envs hc 1, sendPushover_ok cfg sd hsd]

lemma pureOutcomes_length : ∀ (i : Nat) (envs : List FileEnv),
    (pureOutcomes i envs).length = envs.length
  | _, [] => rfl
  | i, _ :: rest => by simp [pureOutcomes, pureOutcomes_length (i + 1) rest]

lemma pureOutcomes_getElem? : ∀ (i : Nat) (envs : List FileEnv) (j : Nat),
    (pureOutcomes i envs)[j]? = (envs[j]?).map (fun e => pureOutcome (i + j) e)
  | _, [], _ => by simp [pureOutcomes]
  | i, e :: rest, 0 => by simp [pureOutcomes]
  | i, e :: rest, j + 1 => by
    simp only [pureOutcomes, List.getElem?_cons_succ]
    rw [pureOutcomes_getElem? (i + 1) rest j]
    have : i + 1 + j = i + (j + 1) := by omega
    rw [this]

lemma pureOutcome_failed (i : Nat) (env : FileEnv)
    (h : env.inputIntegrityError = true ∨ env.outputIntegrityError = true) :
    (pureOutcome i env).status = FileStatus.failed
    ∧ PipeAction.notify NotifyKind.fileError ∈ (pureOutcome i env).actions := by
  by_cases h1 : env.inputIntegrityError <;> by_cases h2 : env.outputIntegrityError <;>
    simp_all [pureOutcome]

/-! ## Claim theorems -/

/-- C2: for every probed integer height outside the supported set
{360, 480, 720, 1080}, `findResolutionOptions` returns exactly the spec
table profile of the supported height with minimal absolute difference to
the probed height, with exact ties going to the lower (first in ascending
order) supported height — `specNearest` is the spec's rule, and the second
and third conjuncts check that it indeed minimises the absolute difference
and resolves ties downward. -/
theorem c2_nearest_match (h : Int)
    (h1 : h ≠ 360) (h2 : h ≠ 480) (h3 : h ≠ 720) (h4 : h ≠ 1080) :
    findResolutionOptions 2 (some h) = specProfile (specNearest h)
    ∧ (∀ r : Int, r = 360 ∨ r = 480 ∨ r = 720 ∨ r = 1080 →
        iabs (specNearest h - h) ≤ iabs (r - h))
    ∧ (∀ r : Int, r = 360 ∨ r = 480 ∨ r = 720 ∨ r = 1080 →
        iabs (r - h) = iabs (specNearest h - h) → specNearest h ≤ r) :=
  ⟨findRO_int h h1 h2 h3 h4,
   fun r hr => specNearest_min h r hr,
   fun r hr he => specNearest_tie h r hr he⟩

/-- C2 witness: at probed height 600 (equidistant from 480 and 720) the
matcher resolves to the 480 profile. -/
theorem c2_nearest_match_witness :
    (600 : Int) ≠ 360 ∧ (600 : Int) ≠ 480 ∧ (600 : Int) ≠ 720 ∧ (600 : Int) ≠ 1080
    ∧ findResolutionOptions 2 (some 600) = specProfile 480 := by
  have hmain := (c2_nearest_match 600 (by decide) (by decide) (by decide) (by decide)).1
  refine ⟨by decide, by decide, by decide, by decide, ?_⟩
  rw [hmain, show specNearest 600 = 480 from by decide]

/-- C3: for every supported height, at any fuel the matcher returns exactly
the spec table profile — matched height plus the ordered
quality/tiling/thread flag sequence (360: 36/1/4, 480: 33/1/4, 720: 32/2/8,
1080: 31/2/8). -/
theorem c3_exact_profiles (n : Nat) :
    findResolutionOptions (n + 1) (some 360) = specProfile 360
    ∧ findResolutionOptions (n + 1) (some 480) = specProfile 480
    ∧ findResolutionOptions (n + 1) (some 720) = specProfile 720
    ∧ findResolutionOptions (n + 1) (some 1080) = specProfile 1080
    ∧ specProfile 360 = some ⟨360, ["-crf", "36", "-tile-columns", "1", "-threads", "4"]⟩
    ∧ specProfile 480 = some ⟨480, ["-crf", "33", "-tile-columns", "1", "-threads", "4"]⟩
    ∧ specProfile 720 = some ⟨720, ["-crf", "32", "-tile-columns", "2", "-threads", "8"]⟩
    ∧ specProfile 1080 = some ⟨1080, ["-crf", "31", "-tile-columns", "2", "-threads", "8"]⟩ :=
  ⟨findRO_exact n 360 (Or.inl rfl),
   findRO_exact n 480 (Or.inr (Or.inl rfl)),
   findRO_exact n 720 (Or.inr (Or.inr (Or.inl rfl))),
   findRO_exact n 1080 (Or.inr (Or.inr (Or.inr rfl))),
   rfl, rfl, rfl, rfl⟩

/-- C10: for every integer probed height the matcher terminates within one
recursive self-call (fuel 2 computes the same value as any larger fuel) and
yields one of the four fixed table profiles; the value the nearest-match
branch recurses on is always a member of the supported set; and for a `NaN`
input no fuel bound suffices — the nearest-match index lookup yields no
supported height and the recursion never returns. -/
theorem c10_matcher_totality :
    (∀ (h : Int) (n : Nat),
      findResolutionOptions (n + 2) (some h) = findResolutionOptions 2 (some h))
    ∧ (∀ h : Int,
        findResolutionOptions 2 (some h) = specProfile 360
        ∨ findResolutionOptions 2 (some h) = specProfile 480
        ∨ findResolutionOptions 2 (some h) = specProfile 720
        ∨ findResolutionOptions 2 (some h) = specProfile 1080)
    ∧ (∀ h : Int, codeNearest h = some (specNearest h)
        ∧ (specNearest h = 360 ∨ specNearest h = 480 ∨ specNearest h = 720
            ∨ specNearest h = 1080))
    ∧ (∀ n : Nat, findResolutionOptions n none = none) := by
  refine ⟨fun h n => findRO_fuel h n, ?_, fun h => ⟨codeNearest_eq h, specNearest_mem h⟩,
    fun n => findRO_none n⟩
  intro h
  by_cases hs : h = 360 ∨ h = 480 ∨ h = 720 ∨ h = 1080
  · rw [show (2 : Nat) = 1 + 1 from rfl, findRO_exact 1 h hs]
    rcases hs with e | e | e | e <;> subst e <;>
      first
        | exact Or.inl rfl
        | exact Or.inr (Or.inl rfl)
        | exact Or.inr (Or.inr (Or.inl rfl))
        | exact Or.inr (Or.inr (Or.inr rfl))
  · push_neg at hs
    obtain ⟨h1, h2, h3, h4⟩ := hs
    rw [findRO_int h h1 h2 h3 h4]
    rcases specNearest_mem h with e | e | e | e <;> rw [e] <;>
      first
        | exact Or.inl rfl
        | exact Or.inr (Or.inl rfl)
        | exact Or.inr (Or.inr (Or.inl rfl))
        | exact Or.inr (Or.inr (Or.inr rfl))

/-- C4: on first run (no version-2 record stored) the code inserts its
default record and flushes — but the inserted record does **not** match the
`AppConfig` record type it is declared against: it has no `pushover_users`
field (the code writes the key `pushover_user` instead), while the same
record with the declared key would conform.  Evaluates the startup logic at
the failing input (an empty stored collection). -/
theorem c4_default_record_shape_bug :
    loadOrInit [] = ([defaultInsertedRecord], true)
    ∧ matchesAppConfig defaultInsertedRecord = false
    ∧ lookupField defaultInsertedRecord "pushover_users" = none
    ∧ lookupField defaultInsertedRecord "pushover_user" = some (JsonVal.arr [JsonVal.str ""])
    ∧ matchesAppConfig appConfigShapedRecord = true :=
  ⟨rfl, rfl, rfl, rfl, rfl⟩

/-- C9: loading the config never overwrites or deletes records of other
versions — the collection is either returned untouched or extended by the
one new default record; concretely, with only a version-1 record stored,
loading creates the version-2 default and both records coexist
afterwards. -/
theorem c9_other_versions_preserved :
    (∀ db : List JsonRecord,
      (loadOrInit db).fst = db ∨ (loadOrInit db).fst = db ++ [defaultInsertedRecord])
    ∧ loadOrInit [v1Record] = ([v1Record, defaultInsertedRecord], true)
    ∧ v1Record ∈ (loadOrInit [v1Record]).fst
    ∧ defaultInsertedRecord ∈ (loadOrInit [v1Record]).fst := by
  refine ⟨?_, rfl, ?_, ?_⟩
  · intro db
    unfold loadOrInit
    cases findOneVersion db currentConfigFileVersion <;> simp
  · exact List.mem_cons_self v1Record [defaultInsertedRecord]
  · exact List.mem_cons_of_mem v1Record (List.mem_cons_self defaultInsertedRecord [])

/-- C1: the claim says a non-zero encode exit marks the file Failed and
skips the output integrity check — but the code never inspects the exit
status: at `encodeFailEnv` (encode exits 1, output decodes cleanly) the
iteration runs the output integrity check and reports the file Done with a
success notification. -/
theorem c1_encode_exit_not_checked_cex :
    encodeFailEnv.encodeExitCode = 1
    ∧ processFile cfgDemo 2 encodeFailEnv
      = Except.ok { status := FileStatus.done,
                    actions := [PipeAction.checkInputIntegrity, PipeAction.probeHeight,
                                PipeAction.ensureOutputDir, PipeAction.startTimer 2,
                                PipeAction.thumbnail, PipeAction.encode,
                                PipeAction.checkOutputIntegrity, PipeAction.clearTimer 2,
                                PipeAction.notify NotifyKind.fileSuccess],
                    startedTimer := true, clearedTimer := true } :=
  ⟨rfl, rfl⟩

/-- C1 (amended): the orchestrator ignores the encode exit code entirely —
the iteration's result is invariant under it — and always proceeds to the
output integrity check; a file failing after encode is detected only by
that check.  In a 3-file batch where file 2's encode failure surfaces as an
output integrity error, file 2 is marked failed with an error notification
and files 1 and 3 still reach Done, with the summary emitted. -/
theorem c1_encode_exit_ignored_amended :
    (∀ (cfg : Option NotifierConfig) (i : Nat) (env : FileEnv) (e : Int),
      processFile cfg i { env with encodeExitCode := e } = processFile cfg i env)
    ∧ runBatch cfgDemo [batchOkEnv 360, encodeCrashEnv, batchOkEnv 1080] okDeliveries
      = Except.ok { outcomes := [pureOutcome 1 (batchOkEnv 360),
                                 pureOutcome 2 encodeCrashEnv,
                                 pureOutcome 3 (batchOkEnv 1080)],
                    finalActions := [PipeAction.notify NotifyKind.batchSummary] }
    ∧ (pureOutcome 1 (batchOkEnv 360)).status = FileStatus.done
    ∧ (pureOutcome 2 encodeCrashEnv).status = FileStatus.failed
    ∧ PipeAction.notify NotifyKind.fileError ∈ (pureOutcome 2 encodeCrashEnv).actions
    ∧ PipeAction.checkOutputIntegrity ∈ (pureOutcome 2 encodeCrashEnv).actions
    ∧ (pureOutcome 3 (batchOkEnv 1080)).status = FileStatus.done := by
  refine ⟨?_, rfl, rfl, rfl, by decide, by decide, rfl⟩
  intro cfg i env e
  cases env
  rfl

/-- C5: the per-file progress interval is **not** always cancelled before
the next file: on the output-integrity-failure path the `continue` skips
`clearInterval`, so the iteration ends Failed with its timer still running
(startedTimer true, clearedTimer false) — only the Done path clears it. -/
theorem c5_timer_leak_on_failure :
    processFile cfgDemo 1 outputFailEnv
      = Except.ok { status := FileStatus.failed,
                    actions := [PipeAction.checkInputIntegrity, PipeAction.probeHeight,
                                PipeAction.ensureOutputDir, PipeAction.startTimer 1,
                                PipeAction.thumbnail, PipeAction.encode,
                                PipeAction.checkOutputIntegrity,
                                PipeAction.notify NotifyKind.fileError],
                    startedTimer := true, clearedTimer := false }
    ∧ processFile cfgDemo 2 outputOkEnv
      = Except.ok { status := FileStatus.done,
                    actions := [PipeAction.checkInputIntegrity, PipeAction.probeHeight,
                                PipeAction.ensureOutputDir, PipeAction.startTimer 2,
                                PipeAction.thumbnail, PipeAction.encode,
                                PipeAction.checkOutputIntegrity, PipeAction.clearTimer 2,
                                PipeAction.notify NotifyKind.fileSuccess],
                    startedTimer := true, clearedTimer := true } :=
  ⟨rfl, rfl⟩

/-- C6: the claim says a failing HTTP delivery never aborts the batch — but
a network-level `fetch` rejection is uncaught: with file 1's success
notification rejecting, the whole 2-file batch evaluates to an abort (file
2 is never processed and no summary is emitted). -/
theorem c6_network_error_aborts_cex :
    runBatch cfgDemo [notifyCrashEnv, batchOkEnv 480] okDeliveries
      = Except.error AbortReason.notifyNetworkError :=
  rfl

/-- C6 (amended): deliveries that resolve — any HTTP status, 2xx or not —
never abort anything (the response is ignored), but a network-level
rejection under a configured notifier escapes `sendPushoverMessage`
uncaught. -/
theorem c6_nondelivery_amended :
    (∀ (cfg : Option NotifierConfig) (ds : List DeliveryOutcome),
      hasNetworkError ds = false → sendPushoverMessage cfg ds = Except.ok ())
    ∧ (∀ (c : NotifierConfig) (ds : List DeliveryOutcome),
      c.pushover_token ≠ "" → c.pushover_users ≠ [] → hasNetworkError ds = true →
      sendPushoverMessage (some c) ds = Except.error AbortReason.notifyNetworkError) := by
  constructor
  · exact fun cfg ds hd => sendPushover_ok cfg ds hd
  · intro c ds ht hu hn
    have h0 : ¬(c.pushover_users.length = 0) := fun hlen => hu (List.length_eq_zero.mp hlen)
    simp [sendPushoverMessage, ht, h0, hn]

/-- C6 witness: a resolved 500 response does not abort; a configured
notifier with a rejecting delivery does. -/
theorem c6_nondelivery_amended_witness :
    hasNetworkError [DeliveryOutcome.resolved 500] = false
    ∧ sendPushoverMessage cfgDemo [DeliveryOutcome.resolved 500] = Except.ok ()
    ∧ sendPushoverMessage
        (some { pushover_token := "token", pushover_users := ["alice", "bob"] })
        [DeliveryOutcome.networkError]
      = Except.error AbortReason.notifyNetworkError := by
  refine ⟨rfl, c6_nondelivery_amended.1 cfgDemo _ rfl, ?_⟩
  exact c6_nondelivery_amended.2 _ _ (by decide) (by decide) rfl

/-- C7: under resolving deliveries and numeric probes, every file whose
input or output integrity check fails gets an error notification and a
Failed outcome while the batch completes: the outcome list covers every
input file, and the batch trace ends with the single summary message. -/
theorem c7_error_containment_and_summary (cfg : Option NotifierConfig)
    (envs : List FileEnv) (sd : List DeliveryOutcome)
    (hc : ∀ e ∈ envs, cleanEnv e) (hsd : hasNetworkError sd = false) :
    ∃ r : BatchResult,
      runBatch cfg envs sd = Except.ok r
      ∧ r.outcomes.length = envs.length
      ∧ (∀ (j : Nat) (e : FileEnv), envs[j]? = some e →
          (e.inputIntegrityError = true ∨ e.outputIntegrityError = true) →
          ∃ o : FileOutcome, r.outcomes[j]? = some o
            ∧ o.status = FileStatus.failed
            ∧ PipeAction.notify NotifyKind.fileError ∈ o.actions)
      ∧ (batchTrace r).getLast? = some (PipeAction.notify NotifyKind.batchSummary)
      ∧ (batchTrace r).count (PipeAction.notify NotifyKind.batchSummary)
        = 1 + (r.outcomes.map FileOutcome.actions).flatten.count
                (PipeAction.notify NotifyKind.batchSummary) := by
  refine ⟨{ outcomes := pureOutcomes 1 envs,
            finalActions := [PipeAction.notify NotifyKind.batchSummary] },
    runBatch_ok cfg envs sd hc hsd, pureOutcomes_length 1 envs, ?_, ?_, ?_⟩
  · intro j e hj herr
    refine ⟨pureOutcome (1 + j) e, ?_, (pureOutcome_failed (1 + j) e herr).1,
      (pureOutcome_failed (1 + j) e herr).2⟩
    show (pureOutcomes 1 envs)[j]? = some (pureOutcome (1 + j) e)
    rw [pureOutcomes_getElem? 1 envs j, hj]
    rfl
  · simp [batchTrace, List.getLast?_concat]
  · simp [batchTrace, List.count_append]
    omega

/-- C7 witness: a concrete 2-file batch whose first file fails its input
integrity check still completes and ends with the summary. -/
theorem c7_error_containment_and_summary_witness :
    cleanEnv c7FailEnv ∧ cleanEnv c7OkEnv
    ∧ hasNetworkError okDeliveries = false
    ∧ runBatch cfgDemo [c7FailEnv, c7OkEnv] okDeliveries = Except.ok c7Result
    ∧ c7Result.outcomes.length = 2
    ∧ (batchTrace c7Result).getLast? = some (PipeAction.notify NotifyKind.batchSummary) := by
  have h1 : ∀ e ∈ [c7FailEnv, c7OkEnv], cleanEnv e := by
    intro e he
    rcases List.mem_cons.mp he with h | h
    · subst h; exact ⟨rfl, rfl, rfl⟩
    · rcases List.mem_singleton.mp h with rfl; exact ⟨rfl, rfl, rfl⟩
  obtain ⟨r, hr, hlen, hfail, hlast, hcount⟩ :=
    c7_error_containment_and_summary cfgDemo [c7FailEnv, c7OkEnv] okDeliveries h1 rfl
  have hre : r = c7Result := Except.ok.inj (hr.symm.trans rfl)
  refine ⟨⟨rfl, rfl, rfl⟩, ⟨rfl, rfl, rfl⟩, rfl, rfl, by decide, ?_⟩
  rw [← hre]
  exact hlast

/-- C8: the claim says a directory input is Skipped via an explicit
filesystem-metadata check before any processing — but the code performs no
such check: at `dirEnv` (a directory) the iteration's first action is the
input integrity check, the directory-stat action never occurs, and the
terminal state is Failed, not Skipped. -/
theorem c8_directory_not_skipped_cex :
    dirEnv.isDirectory = true
    ∧ processFile cfgDemo 1 dirEnv
      = Except.ok { status := FileStatus.failed,
                    actions := [PipeAction.checkInputIntegrity,
                                PipeAction.notify NotifyKind.fileError],
                    startedTimer := false, clearedTimer := false } :=
  ⟨rfl, rfl⟩

/-- C8 (amended): the pipeline never consults directory metadata — its
result is invariant under the `isDirectory` flag, no completed iteration
ever performs the directory-stat action or ends Skipped, and every
completed iteration starts with the input integrity check. -/
theorem c8_no_directory_check_amended :
    (∀ (cfg : Option NotifierConfig) (i : Nat) (env : FileEnv) (b : Bool),
      processFile cfg i { env with isDirectory := b } = processFile cfg i env)
    ∧ (∀ (cfg : Option NotifierConfig) (i : Nat) (env : FileEnv) (o : FileOutcome),
      processFile cfg i env = Except.ok o →
      o.status ≠ FileStatus.skipped
      ∧ PipeAction.statDirectory ∉ o.actions
      ∧ o.actions.head? = some PipeAction.checkInputIntegrity) := by
  constructor
  · intro cfg i env b
    cases env
    rfl
  · intro cfg i env o h
    cases hb : env.inputIntegrityError
    · cases hm : findResolutionOptions 2 env.probedHeight with
      | none => simp [processFile, hb, hm] at h
      | some p =>
        cases hb2 : env.outputIntegrityError
        · cases hse : sendPushoverMessage cfg env.successNotifyDeliveries with
          | error e => simp [processFile, hb, hm, hb2, hse] at h
          | ok u =>
            simp [processFile, hb, hm, hb2, hse] at h
            subst h
            exact ⟨by simp, by simp, rfl⟩
        · cases hse : sendPushoverMessage cfg env.errorNotifyDeliveries with
          | error e => simp [processFile, hb, hm, hb2, hse] at h
          | ok u =>
            simp [processFile, hb, hm, hb2, hse] at h
            subst h
            exact ⟨by simp, by simp, rfl⟩
    · cases hse : sendPushoverMessage cfg env.errorNotifyDeliveries with
      | error e => simp [processFile, hb, hse] at h
      | ok u =>
        simp [processFile, hb, hse] at h
        subst h
        exact ⟨by simp, by simp, rfl⟩

/-- C8 witness: the amended theorem applied to a concrete directory input
that the pipeline nevertheless processes to Done. -/
theorem c8_no_directory_check_amended_witness :
    processFile cfgDemo 3 dirProbeEnv = Except.ok (pureOutcome 3 dirProbeEnv)
    ∧ (pureOutcome 3 dirProbeEnv).status ≠ FileStatus.skipped
    ∧ PipeAction.statDirectory ∉ (pureOutcome 3 dirProbeEnv).actions
    ∧ (pureOutcome 3 dirProbeEnv).actions.head? = some PipeAction.checkInputIntegrity := by
  have h := c8_no_directory_check_amended.2 cfgDemo 3 dirProbeEnv (pureOutcome 3 dirProbeEnv) rfl
  exact ⟨rfl, h.1, h.2.1, h.2.2⟩
